import Mathlib

/-!
Shallow embedding of the SYNCRO subscription-renewal contract
(src/contracts/contracts/subscription_renewal/src/lib.rs) and the
agent-registry contract (src/contracts/contracts/agent-registry/src/lib.rs).

Addresses and identifiers are modelled as naturals, the host ledger
sequence number is passed explicitly, panics and expect-failures become
an explicit error type, and event publication becomes an event list.
An aborting call commits nothing, so the trace semantics `applyOp`
leaves the store unchanged on any error.
-/

/-- States of a subscription, from `enum SubscriptionState`. -/
inductive SubscriptionState
  | Active
  | Retrying
  | Failed
  deriving DecidableEq, Repr

/-- Persisted record, from `struct SubscriptionData`. -/
structure SubscriptionData where
  owner : Nat
  state : SubscriptionState
  failure_count : Nat
  last_attempt_ledger : Nat
  deriving DecidableEq, Repr

/-- Abort reasons of the subscription contract: the two expect-failure
sites ("Subscription not found") and the two panic sites, under the
names the specification gives them. -/
inductive RenewError
  | SubscriptionNotFound
  | TerminalStateViolation
  | CooldownActive
  deriving DecidableEq, Repr

/-- Events published by the subscription contract. -/
inductive ContractEvent
  | renewed (sub_id : Nat) (owner : Nat)
  | failed (sub_id : Nat) (failure_count : Nat) (ledger : Nat)
  | state_ch (sub_id : Nat) (st : SubscriptionState)
  deriving DecidableEq, Repr

/-- Persistent storage of the subscription contract: one optional record
per u64 key. -/
def Store : Type := Nat → Option SubscriptionData

/-- Write one record, leaving every other key untouched. -/
def Store.set (s : Store) (key : Nat) (v : SubscriptionData) : Store :=
  fun k => if k = key then some v else s k

/-- The store before any call. -/
def emptyStore : Store := fun _ => none

/-- Initialize a subscription (`init_sub`): unconditionally stores a
fresh Active record with zero failures; an existing record under the
same key is overwritten. -/
def init_sub (s : Store) (info : Nat) (sub_id : Nat) : Store :=
  Store.set s sub_id
    { owner := info, state := SubscriptionState.Active,
      failure_count := 0, last_attempt_ledger := 0 }

/-- Renewal attempt (`renew`): looks the record up, checks the absorbing
Failed state and the cooldown gate, then applies the success or failure
transition, returning the updated store, the published events and the
boolean result. -/
def renew (s : Store) (current_ledger : Nat) (sub_id : Nat)
    (max_retries : Nat) (cooldown_ledgers : Nat) (succeed : Bool) :
    Except RenewError (Store × List ContractEvent × Bool) :=
  match s sub_id with
  | none => Except.error RenewError.SubscriptionNotFound
  | some data =>
    if data.state = SubscriptionState.Failed then
      Except.error RenewError.TerminalStateViolation
    else if data.failure_count > 0 ∧
        current_ledger < data.last_attempt_ledger + cooldown_ledgers then
      Except.error RenewError.CooldownActive
    else if succeed then
      let d := { data with
                  state := SubscriptionState.Active,
                  failure_count := 0,
                  last_attempt_ledger := current_ledger }
      Except.ok (Store.set s sub_id d,
        [ContractEvent.renewed sub_id d.owner], true)
    else
      let fc := data.failure_count + 1
      let st := if fc > max_retries then SubscriptionState.Failed
                else SubscriptionState.Retrying
      let d := { data with
                  state := st,
                  failure_count := fc,
                  last_attempt_ledger := current_ledger }
      Except.ok (Store.set s sub_id d,
        [ContractEvent.failed sub_id fc current_ledger,
         ContractEvent.state_ch sub_id st], false)

/-- Read a subscription record (`get_sub`). -/
def get_sub (s : Store) (sub_id : Nat) : Except RenewError SubscriptionData :=
  match s sub_id with
  | none => Except.error RenewError.SubscriptionNotFound
  | some d => Except.ok d

/-- One entry-point invocation; a renew invocation carries the host
ledger sequence at which it runs (`init_sub` does not read the ledger). -/
inductive Op
  | init (info : Nat) (sub_id : Nat)
  | renewAt (now : Nat) (sub_id : Nat) (max_retries : Nat)
      (cooldown_ledgers : Nat) (succeed : Bool)
  deriving DecidableEq, Repr

/-- Commit semantics of one invocation: an aborting call leaves the
store unchanged (all-or-nothing per invocation). -/
def applyOp (s : Store) (op : Op) : Store :=
  match op with
  | Op.init info sub_id => init_sub s info sub_id
  | Op.renewAt now sub_id mr cd succeed =>
    match renew s now sub_id mr cd succeed with
    | Except.ok r => r.1
    | Except.error _ => s

/-- Run a trace of invocations against a store. -/
def runOps (s : Store) (ops : List Op) : Store :=
  ops.foldl applyOp s

/-- Host-sequence stamps of the renew invocations of a trace, in order. -/
def nowsOf : List Op → List Nat
  | [] => []
  | Op.init _ _ :: rest => nowsOf rest
  | Op.renewAt now _ _ _ _ :: rest => now :: nowsOf rest

/-- The host sequence counter is non-decreasing along the trace. -/
@[reducible] def NowsMonotone (ops : List Op) : Prop :=
  List.Pairwise (fun a b => a ≤ b) (nowsOf ops)

/-- A renew call commits (reaches the transition rule and persists)
rather than aborting. -/
def commits (r : Except RenewError (Store × List ContractEvent × Bool)) : Bool :=
  match r with
  | Except.ok _ => true
  | Except.error _ => false

/-- Error codes of the agent-registry contract. -/
inductive RegError
  | AlreadyInitOnce
  | NotInitYet
  | Unauthorized
  deriving DecidableEq, Repr

/-- Events published by the agent-registry contract. -/
inductive RegEvent
  | agentReg (agent : Nat)
  | agentRev (agent : Nat)
  deriving DecidableEq, Repr

/-- State of the agent registry: the instance-storage admin slot and the
persistent agent allow-list (key present iff mapped to true). -/
structure RegistryState where
  admin : Option Nat
  agents : Nat → Bool

/-- Outcome of a registry entry point: a host trap (a failed
`require_auth`), a typed error result, or success with the new state and
the published events. -/
inductive RegResult
  | trap
  | err (e : RegError)
  | ok (st : RegistryState) (events : List RegEvent)

namespace AgentRegistry

/-- Initialize the registry with an admin address (`init`). -/
def init (st : RegistryState) (admin : Nat) : RegResult :=
  match st.admin with
  | some _ => RegResult.err RegError.AlreadyInitOnce
  | none => RegResult.ok { st with admin := some admin } []

/-- Register a new agent (`register`): requires the admin slot to be set
and the admin to have authorized the call (`auths` is the set of
principals whose authorization the host verified). -/
def register (auths : Nat → Bool) (st : RegistryState) (agent : Nat) :
    RegResult :=
  match st.admin with
  | none => RegResult.err RegError.NotInitYet
  | some admin =>
    if auths admin then
      RegResult.ok
        { st with agents := fun a => if a = agent then true else st.agents a }
        [RegEvent.agentReg agent]
    else RegResult.trap

/-- Revoke an agent (`revoke`): admin only; removes the persistent key. -/
def revoke (auths : Nat → Bool) (st : RegistryState) (agent : Nat) :
    RegResult :=
  match st.admin with
  | none => RegResult.err RegError.NotInitYet
  | some admin =>
    if auths admin then
      RegResult.ok
        { st with agents := fun a => if a = agent then false else st.agents a }
        [RegEvent.agentRev agent]
    else RegResult.trap

/-- Membership query (`is_authorized`). -/
def is_authorized (st : RegistryState) (agent : Nat) : Bool :=
  st.agents agent

end AgentRegistry

/-- Looking up the key just written. -/
theorem Store.set_self (s : Store) (k : Nat) (v : SubscriptionData) :
    Store.set s k v k = some v := by
  simp [Store.set]

/-- Looking up a different key after a write. -/
theorem Store.set_ne (s : Store) (k k2 : Nat) (v : SubscriptionData)
    (h : k2 ≠ k) : Store.set s k v k2 = s k2 := by
  simp [Store.set, h]

/-- Lookup through `init_sub`. -/
theorem init_sub_lookup (s : Store) (o sub_id k : Nat) :
    init_sub s o sub_id k =
      if k = sub_id then
        some { owner := o, state := SubscriptionState.Active,
               failure_count := 0, last_attempt_ledger := 0 }
      else s k := by
  simp [init_sub, Store.set]

/-- C2: a record in the Failed state makes every renew call, for any
policy parameters and either outcome, abort with TerminalStateViolation
and leave the stored record unchanged. -/
theorem failed_state_absorbing (s : Store) (now sub_id mr cd : Nat)
    (succeed : Bool) (d : SubscriptionData) (h : s sub_id = some d)
    (hf : d.state = SubscriptionState.Failed) :
    renew s now sub_id mr cd succeed =
      Except.error RenewError.TerminalStateViolation ∧
    applyOp s (Op.renewAt now sub_id mr cd succeed) = s := by
  have hr : renew s now sub_id mr cd succeed =
      Except.error RenewError.TerminalStateViolation := by
    unfold renew
    rw [h]
    simp [hf]
  exact ⟨hr, by simp [applyOp, hr]⟩

/-- C2 witness at a concrete Failed record. -/
theorem failed_state_absorbing_witness :
    renew (Store.set emptyStore 1
        { owner := 7, state := SubscriptionState.Failed,
          failure_count := 3, last_attempt_ledger := 5 }) 40 1 2 10 true =
      Except.error RenewError.TerminalStateViolation ∧
    applyOp (Store.set emptyStore 1
        { owner := 7, state := SubscriptionState.Failed,
          failure_count := 3, last_attempt_ledger := 5 })
      (Op.renewAt 40 1 2 10 true) =
      Store.set emptyStore 1
        { owner := 7, state := SubscriptionState.Failed,
          failure_count := 3, last_attempt_ledger := 5 } :=
  failed_state_absorbing _ 40 1 2 10 true
    { owner := 7, state := SubscriptionState.Failed,
      failure_count := 3, last_attempt_ledger := 5 } (by decide) rfl

/-- C4: a successful renewal of an existing, non-Failed record passing
the cooldown gate resets the record to Active with zero failures, stamps
the current ledger, persists it, publishes the renewed event with the
owner as payload, and returns true. -/
theorem renew_success_transition (s : Store) (now sub_id mr cd : Nat)
    (d : SubscriptionData) (h : s sub_id = some d)
    (hf : d.state ≠ SubscriptionState.Failed)
    (hc : ¬ (d.failure_count > 0 ∧ now < d.last_attempt_ledger + cd)) :
    renew s now sub_id mr cd true =
      Except.ok (Store.set s sub_id
        { owner := d.owner, state := SubscriptionState.Active,
          failure_count := 0, last_attempt_ledger := now },
        [ContractEvent.renewed sub_id d.owner], true) := by
  unfold renew
  rw [h]
  simp [hf, hc]

/-- C4 witness: a success call on a Retrying record with two prior
failures, past its cooldown. -/
theorem renew_success_transition_witness :
    renew (Store.set emptyStore 1
        { owner := 7, state := SubscriptionState.Retrying,
          failure_count := 2, last_attempt_ledger := 5 }) 20 1 3 10 true =
      Except.ok (Store.set (Store.set emptyStore 1
        { owner := 7, state := SubscriptionState.Retrying,
          failure_count := 2, last_attempt_ledger := 5 }) 1
        { owner := 7, state := SubscriptionState.Active,
          failure_count := 0, last_attempt_ledger := 20 },
        [ContractEvent.renewed 1 7], true) :=
  renew_success_transition _ 20 1 3 10
    { owner := 7, state := SubscriptionState.Retrying,
      failure_count := 2, last_attempt_ledger := 5 } (by decide) (by decide)
    (by decide)

/-- Statement of claim C6's first half as written: initializing an
identifier that already holds a record would leave that record in
place. -/
def initRejectsDuplicates : Prop :=
  ∀ (s : Store) (o sub_id : Nat) (d : SubscriptionData),
    s sub_id = some d → init_sub s o sub_id sub_id = some d

/-- C6 counterexample: re-initializing key 1, which holds a Retrying
record with two failures, does not fail and does not preserve the
record; `init_sub` has no failure path and silently overwrites. -/
theorem init_sub_duplicate_counterexample : ¬ initRejectsDuplicates := by
  intro h
  have h2 := h (Store.set emptyStore 1
      { owner := 5, state := SubscriptionState.Retrying,
        failure_count := 2, last_attempt_ledger := 9 }) 7 1
    { owner := 5, state := SubscriptionState.Retrying,
      failure_count := 2, last_attempt_ledger := 9 } (by decide)
  exact absurd h2 (by decide)

/-- C6 amended: `init_sub` never fails; for any identifier, present or
absent, it stores the fresh record with state Active, zero failures and
last-attempt ledger 0, overwriting any existing record. -/
theorem init_sub_overwrites (s : Store) (o sub_id : Nat) :
    init_sub s o sub_id sub_id =
      some { owner := o, state := SubscriptionState.Active,
             failure_count := 0, last_attempt_ledger := 0 } := by
  simp [init_sub, Store.set]

/-- C8: renew on an absent identifier aborts with SubscriptionNotFound
and creates nothing; `get_sub` on an absent identifier fails with
SubscriptionNotFound and on a present one returns a copy of the record. -/
theorem missing_subscription_errors :
    (∀ (s : Store) (now sub_id mr cd : Nat) (b : Bool),
      s sub_id = none →
      renew s now sub_id mr cd b =
        Except.error RenewError.SubscriptionNotFound ∧
      applyOp s (Op.renewAt now sub_id mr cd b) = s) ∧
    (∀ (s : Store) (sub_id : Nat),
      (s sub_id = none →
        get_sub s sub_id = Except.error RenewError.SubscriptionNotFound) ∧
      (∀ d, s sub_id = some d → get_sub s sub_id = Except.ok d)) := by
  refine ⟨fun s now sub_id mr cd b h => ?_, fun s sub_id => ⟨fun h => ?_, fun d h => ?_⟩⟩
  · have hr : renew s now sub_id mr cd b =
        Except.error RenewError.SubscriptionNotFound := by
      unfold renew
      rw [h]
    exact ⟨hr, by simp [applyOp, hr]⟩
  · unfold get_sub
    rw [h]
  · unfold get_sub
    rw [h]

/-- C8 witness on the empty store and on a one-record store. -/
theorem missing_subscription_errors_witness :
    (renew emptyStore 3 1 2 10 true =
        Except.error RenewError.SubscriptionNotFound ∧
      applyOp emptyStore (Op.renewAt 3 1 2 10 true) = emptyStore) ∧
    get_sub emptyStore 1 = Except.error RenewError.SubscriptionNotFound ∧
    get_sub (init_sub emptyStore 7 1) 1 =
      Except.ok { owner := 7, state := SubscriptionState.Active,
                  failure_count := 0, last_attempt_ledger := 0 } :=
  ⟨missing_subscription_errors.1 emptyStore 3 1 2 10 true rfl,
   (missing_subscription_errors.2 emptyStore 1).1 rfl,
   (missing_subscription_errors.2 (init_sub emptyStore 7 1) 1).2 _ (by decide)⟩


/-- Unfolding lemma: renew on an absent key. -/
theorem renew_none (s : Store) (now sub_id mr cd : Nat) (succeed : Bool)
    (h : s sub_id = none) :
    renew s now sub_id mr cd succeed =
      Except.error RenewError.SubscriptionNotFound := by
  unfold renew
  rw [h]

/-- Unfolding lemma: renew on a present key, as an if-chain over the
looked-up record. -/
theorem renew_some (s : Store) (now sub_id mr cd : Nat) (succeed : Bool)
    (d : SubscriptionData) (h : s sub_id = some d) :
    renew s now sub_id mr cd succeed =
      if d.state = SubscriptionState.Failed then
        Except.error RenewError.TerminalStateViolation
      else if d.failure_count > 0 ∧ now < d.last_attempt_ledger + cd then
        Except.error RenewError.CooldownActive
      else if succeed then
        Except.ok (Store.set s sub_id
          { owner := d.owner, state := SubscriptionState.Active,
            failure_count := 0, last_attempt_ledger := now },
          [ContractEvent.renewed sub_id d.owner], true)
      else
        Except.ok (Store.set s sub_id
          { owner := d.owner,
            state := if d.failure_count + 1 > mr then SubscriptionState.Failed
                     else SubscriptionState.Retrying,
            failure_count := d.failure_count + 1,
            last_attempt_ledger := now },
          [ContractEvent.failed sub_id (d.failure_count + 1) now,
           ContractEvent.state_ch sub_id
             (if d.failure_count + 1 > mr then SubscriptionState.Failed
              else SubscriptionState.Retrying)], false) := by
  unfold renew
  rw [h]

/-- Unfolding lemma: trace semantics of a renew invocation. -/
theorem applyOp_renewAt (s : Store) (now sub_id mr cd : Nat) (b : Bool) :
    applyOp s (Op.renewAt now sub_id mr cd b) =
      match renew s now sub_id mr cd b with
      | Except.ok r => r.1
      | Except.error _ => s := rfl

/-- Any renew invocation either leaves a key unchanged or, at the
renewed key itself, stores a record stamped with the current ledger
sequence. -/
theorem applyOp_renewAt_cases (s : Store) (now sub_id mr cd : Nat)
    (b : Bool) (k : Nat) :
    applyOp s (Op.renewAt now sub_id mr cd b) k = s k ∨
    (k = sub_id ∧ ∃ d2,
      applyOp s (Op.renewAt now sub_id mr cd b) k = some d2 ∧
      d2.last_attempt_ledger = now) := by
  cases hd : s sub_id with
  | none =>
    rw [applyOp_renewAt, renew_none s now sub_id mr cd b hd]
    exact Or.inl rfl
  | some d =>
    rw [applyOp_renewAt, renew_some s now sub_id mr cd b d hd]
    split_ifs with h1 h2 h3 h4
    · exact Or.inl rfl
    · exact Or.inl rfl
    all_goals by_cases hk : k = sub_id
    all_goals try subst hk
    all_goals try exact Or.inr ⟨rfl, _, Store.set_self s k _, rfl⟩
    all_goals exact Or.inl (Store.set_ne s sub_id k _ hk)

/-- C3: for an existing non-Failed record with a positive failure count,
a renew call aborts with CooldownActive exactly when the current ledger
is short of the last attempt plus the cooldown, and commits exactly when
the cooldown has elapsed; with a zero failure count the call always
commits; a CooldownActive abort persists nothing. -/
theorem cooldown_gate (s : Store) (now sub_id mr cd : Nat)
    (succeed : Bool) (d : SubscriptionData) (h : s sub_id = some d)
    (hf : d.state ≠ SubscriptionState.Failed) :
    (d.failure_count > 0 →
      (renew s now sub_id mr cd succeed =
          Except.error RenewError.CooldownActive ↔
        now < d.last_attempt_ledger + cd)) ∧
    (d.failure_count > 0 →
      (commits (renew s now sub_id mr cd succeed) = true ↔
        d.last_attempt_ledger + cd ≤ now)) ∧
    (d.failure_count = 0 → commits (renew s now sub_id mr cd succeed) = true) ∧
    (renew s now sub_id mr cd succeed = Except.error RenewError.CooldownActive →
      applyOp s (Op.renewAt now sub_id mr cd succeed) = s) := by
  rw [renew_some s now sub_id mr cd succeed d h, applyOp_renewAt,
    renew_some s now sub_id mr cd succeed d h]
  rw [if_neg hf]
  by_cases hg : d.failure_count > 0 ∧ now < d.last_attempt_ledger + cd
  · rw [if_pos hg]
    refine ⟨fun _ => ⟨fun _ => hg.2, fun _ => rfl⟩,
      fun _ => ⟨fun hcm => ?_, fun hle => ?_⟩,
      fun hfc0 => ?_, fun _ => rfl⟩
    · simp [commits] at hcm
    · exact absurd hg.2 (by omega)
    · exact absurd hg.1 (by omega)
  · rw [if_neg hg]
    refine ⟨fun hfc => ⟨fun he => ?_, fun hlt => absurd ⟨hfc, hlt⟩ hg⟩,
      fun hfc => ⟨fun _ => ?_, fun _ => ?_⟩,
      fun _ => ?_, fun he => ?_⟩
    · cases succeed <;> simp at he
    · by_contra hle
      push_neg at hle
      exact hg ⟨hfc, hle⟩
    · cases succeed <;> simp [commits]
    · cases succeed <;> simp [commits]
    · cases succeed <;> simp at he

/-- C3 witness: a Retrying record last attempted at 10 with cooldown 5
aborts at ledger 12 and persists nothing, and commits at ledger 15; a
fresh record commits at any ledger. -/
theorem cooldown_gate_witness :
    (renew (Store.set emptyStore 1
        { owner := 7, state := SubscriptionState.Retrying,
          failure_count := 1, last_attempt_ledger := 10 }) 12 1 3 5 false =
      Except.error RenewError.CooldownActive) ∧
    (applyOp (Store.set emptyStore 1
        { owner := 7, state := SubscriptionState.Retrying,
          failure_count := 1, last_attempt_ledger := 10 })
        (Op.renewAt 12 1 3 5 false) =
      Store.set emptyStore 1
        { owner := 7, state := SubscriptionState.Retrying,
          failure_count := 1, last_attempt_ledger := 10 }) ∧
    commits (renew (Store.set emptyStore 1
        { owner := 7, state := SubscriptionState.Retrying,
          failure_count := 1, last_attempt_ledger := 10 }) 15 1 3 5 false) =
      true ∧
    commits (renew (init_sub emptyStore 7 2) 0 2 3 5 false) = true := by
  have h12 := cooldown_gate (Store.set emptyStore 1
      { owner := 7, state := SubscriptionState.Retrying,
        failure_count := 1, last_attempt_ledger := 10 }) 12 1 3 5 false
    { owner := 7, state := SubscriptionState.Retrying,
      failure_count := 1, last_attempt_ledger := 10 } (by decide) (by decide)
  have h15 := cooldown_gate (Store.set emptyStore 1
      { owner := 7, state := SubscriptionState.Retrying,
        failure_count := 1, last_attempt_ledger := 10 }) 15 1 3 5 false
    { owner := 7, state := SubscriptionState.Retrying,
      failure_count := 1, last_attempt_ledger := 10 } (by decide) (by decide)
  have h0 := cooldown_gate (init_sub emptyStore 7 2) 0 2 3 5 false
    { owner := 7, state := SubscriptionState.Active,
      failure_count := 0, last_attempt_ledger := 0 } (by decide) (by decide)
  have habort := (h12.1 (by decide)).mpr (by decide)
  exact ⟨habort, h12.2.2.2 habort,
    (h15.2.1 (by decide)).mpr (by decide), h0.2.2.1 rfl⟩

/-- C10: an invocation keyed to one identifier, whether it commits or
aborts, leaves the record (and existence status) of any other
identifier unchanged. -/
theorem frame_other_ids (s : Store) (id1 id2 o now mr cd : Nat)
    (b : Bool) (h : id1 ≠ id2) :
    init_sub s o id1 id2 = s id2 ∧
    applyOp s (Op.renewAt now id1 mr cd b) id2 = s id2 := by
  constructor
  · rw [init_sub_lookup]
    simp [Ne.symm h]
  · rcases applyOp_renewAt_cases s now id1 mr cd b id2 with h1 | ⟨heq, _⟩
    · exact h1
    · exact absurd heq (Ne.symm h)

/-- C10 witness: operations on key 1 leave the record at key 2 alone. -/
theorem frame_other_ids_witness :
    init_sub (init_sub emptyStore 9 2) 7 1 2 = (init_sub emptyStore 9 2) 2 ∧
    applyOp (init_sub emptyStore 9 2) (Op.renewAt 3 1 2 5 false) 2 =
      (init_sub emptyStore 9 2) 2 :=
  frame_other_ids (init_sub emptyStore 9 2) 1 2 7 3 2 5 false (by decide)

/-- Record held at key 1 after j consecutive failure attempts (at
ledger 0, cooldown 0) against a fresh subscription with policy m. -/
def streakRecord (o m j : Nat) : SubscriptionData :=
  { owner := o,
    state := if j = 0 then SubscriptionState.Active
             else if m < j then SubscriptionState.Failed
             else SubscriptionState.Retrying,
    failure_count := min j (m + 1),
    last_attempt_ledger := 0 }

/-- One more failure attempt advances the streak record. -/
theorem streak_step (o m j : Nat) (s : Store)
    (h : s 1 = some (streakRecord o m j)) :
    applyOp s (Op.renewAt 0 1 m 0 false) 1 = some (streakRecord o m (j + 1)) := by
  by_cases hjm : m < j
  · have hj0 : ¬ (j = 0) := by omega
    have hstate : (streakRecord o m j).state = SubscriptionState.Failed := by
      simp [streakRecord, hj0, hjm]
    rw [applyOp_renewAt, renew_some s 0 1 m 0 false _ h, if_pos hstate]
    show s 1 = some (streakRecord o m (j + 1))
    rw [h]
    have heq : streakRecord o m j = streakRecord o m (j + 1) := by
      simp only [streakRecord, hj0, hjm, if_false, if_pos]
      have hj1 : ¬ (j + 1 = 0) := by omega
      have hjm1 : m < j + 1 := by omega
      have hmin : min j (m + 1) = m + 1 := Nat.min_eq_right (by omega)
      have hmin1 : min (j + 1) (m + 1) = m + 1 := Nat.min_eq_right (by omega)
      simp [hj1, hjm1, hmin, hmin1]
    exact congrArg some heq
  · have hstate : ¬ ((streakRecord o m j).state = SubscriptionState.Failed) := by
      by_cases hj0 : j = 0 <;> simp [streakRecord, hj0, hjm]
    have hgate : ¬ ((streakRecord o m j).failure_count > 0 ∧
        (0 : Nat) < (streakRecord o m j).last_attempt_ledger + 0) := by
      simp [streakRecord]
    rw [applyOp_renewAt, renew_some s 0 1 m 0 false _ h, if_neg hstate,
      if_neg hgate, if_neg Bool.false_ne_true]
    refine Eq.trans (Store.set_self s 1 _) (congrArg some ?_)
    have hmin : min j (m + 1) = j := Nat.min_eq_left (by omega)
    have hmin1 : min (j + 1) (m + 1) = j + 1 := Nat.min_eq_left (by omega)
    have hj1 : ¬ (j + 1 = 0) := by omega
    simp [streakRecord, hmin, hmin1, hj1]

/-- Iterating failure attempts advances the streak record stepwise. -/
theorem streak_iterate (o m : Nat) : ∀ (n j : Nat) (s : Store),
    s 1 = some (streakRecord o m j) →
    ((fun st => applyOp st (Op.renewAt 0 1 m 0 false))^[n] s) 1 =
      some (streakRecord o m (j + n)) := by
  intro n
  induction n with
  | zero =>
    intro j s h
    simpa using h
  | succ n ih =>
    intro j s h
    rw [Function.iterate_succ_apply]
    have hres := ih (j + 1) _ (streak_step o m j s h)
    have harith : j + 1 + n = j + (n + 1) := by omega
    rw [harith] at hres
    exact hres

/-- Running a constant replicated trace is function iteration. -/
theorem runOps_replicate (op : Op) : ∀ (k : Nat) (s : Store),
    runOps s (List.replicate k op) = (fun st => applyOp st op)^[k] s := by
  intro k
  induction k with
  | zero => intro s; rfl
  | succ n ih =>
    intro s
    rw [List.replicate_succ]
    show runOps (applyOp s op) (List.replicate n op) = _
    rw [ih, Function.iterate_succ_apply]

/-- C1: a renew call with outcome failure on an existing non-Failed
record passing the cooldown gate increments the failure count, stamps
the current ledger, escalates to Failed exactly when the new count
exceeds maxRetries and to Retrying otherwise, publishes the failed event
with payload (failureCount, now) and the state-change event with the new
state, persists the record and returns false; moreover after k
consecutive failure attempts against a fresh record under policy
maxRetries = m the state is Failed iff k > m and Retrying otherwise. -/
theorem renew_failure_transition :
    (∀ (s : Store) (now sub_id mr cd : Nat) (d : SubscriptionData),
      s sub_id = some d →
      d.state ≠ SubscriptionState.Failed →
      ¬ (d.failure_count > 0 ∧ now < d.last_attempt_ledger + cd) →
      renew s now sub_id mr cd false =
        Except.ok (Store.set s sub_id
          { owner := d.owner,
            state := if d.failure_count + 1 > mr then SubscriptionState.Failed
                     else SubscriptionState.Retrying,
            failure_count := d.failure_count + 1,
            last_attempt_ledger := now },
          [ContractEvent.failed sub_id (d.failure_count + 1) now,
           ContractEvent.state_ch sub_id
             (if d.failure_count + 1 > mr then SubscriptionState.Failed
              else SubscriptionState.Retrying)], false)) ∧
    (∀ (o m k : Nat), 1 ≤ k →
      runOps emptyStore
          (Op.init o 1 :: List.replicate k (Op.renewAt 0 1 m 0 false)) 1 =
        some { owner := o,
               state := if m < k then SubscriptionState.Failed
                        else SubscriptionState.Retrying,
               failure_count := min k (m + 1),
               last_attempt_ledger := 0 }) := by
  constructor
  · intro s now sub_id mr cd d h hf hc
    rw [renew_some s now sub_id mr cd false d h, if_neg hf, if_neg hc,
      if_neg Bool.false_ne_true]
  · intro o m k hk
    show runOps (applyOp emptyStore (Op.init o 1))
      (List.replicate k (Op.renewAt 0 1 m 0 false)) 1 = _
    rw [runOps_replicate]
    have hinit : (applyOp emptyStore (Op.init o 1)) 1 =
        some (streakRecord o m 0) := by
      simp [applyOp, streakRecord, init_sub_lookup]
    have hres := streak_iterate o m k 0 _ hinit
    rw [Nat.zero_add] at hres
    rw [hres]
    have hk0 : ¬ (k = 0) := by omega
    simp [streakRecord, hk0]

/-- C1 witness: a single failure on a fresh record with maxRetries 2
produces a Retrying record with one failure, both events and result
false; three straight failures under maxRetries 2 end in Failed. -/
theorem renew_failure_transition_witness :
    renew (init_sub emptyStore 7 1) 5 1 2 3 false =
      Except.ok (Store.set (init_sub emptyStore 7 1) 1
        { owner := 7, state := SubscriptionState.Retrying,
          failure_count := 1, last_attempt_ledger := 5 },
        [ContractEvent.failed 1 1 5,
         ContractEvent.state_ch 1 SubscriptionState.Retrying], false) ∧
    runOps emptyStore
        (Op.init 7 1 :: List.replicate 3 (Op.renewAt 0 1 2 0 false)) 1 =
      some { owner := 7, state := SubscriptionState.Failed,
             failure_count := 3, last_attempt_ledger := 0 } := by
  constructor
  · have h := renew_failure_transition.1 (init_sub emptyStore 7 1) 5 1 2 3
      { owner := 7, state := SubscriptionState.Active,
        failure_count := 0, last_attempt_ledger := 0 }
      (by decide) (by decide) (by decide)
    simpa using h
  · have h := renew_failure_transition.2 7 2 3 (by decide)
    simpa using h

/-- Invariant: every Active record carries a zero failure count. -/
def ActiveZero (s : Store) : Prop :=
  ∀ sub_id d, s sub_id = some d →
    d.state = SubscriptionState.Active → d.failure_count = 0

/-- One invocation preserves the Active-zero invariant. -/
theorem activeZero_applyOp (s : Store) (op : Op) (h : ActiveZero s) :
    ActiveZero (applyOp s op) := by
  cases op with
  | init o sub_id =>
    intro k dk hk ha
    rw [show applyOp s (Op.init o sub_id) = init_sub s o sub_id from rfl,
      init_sub_lookup] at hk
    by_cases hkk : k = sub_id
    · rw [if_pos hkk] at hk
      cases hk
      rfl
    · rw [if_neg hkk] at hk
      exact h k dk hk ha
  | renewAt now sub_id mr cd b =>
    intro k dk hk ha
    cases hd : s sub_id with
    | none =>
      rw [applyOp_renewAt, renew_none s now sub_id mr cd b hd] at hk
      exact h k dk hk ha
    | some d =>
      rw [applyOp_renewAt, renew_some s now sub_id mr cd b d hd] at hk
      split_ifs at hk with h1 h2 h3 h4
      · exact h k dk hk ha
      · exact h k dk hk ha
      · by_cases hkk : k = sub_id
        · subst hkk
          have hk2 : Store.set s k
              { owner := d.owner, state := SubscriptionState.Active,
                failure_count := 0, last_attempt_ledger := now } k =
              some dk := hk
          rw [Store.set_self] at hk2
          cases hk2
          rfl
        · have hk2 : Store.set s sub_id
              { owner := d.owner, state := SubscriptionState.Active,
                failure_count := 0, last_attempt_ledger := now } k =
              some dk := hk
          rw [Store.set_ne s sub_id k _ hkk] at hk2
          exact h k dk hk2 ha
      · by_cases hkk : k = sub_id
        · subst hkk
          have hk2 : Store.set s k
              { owner := d.owner, state := SubscriptionState.Failed,
                failure_count := d.failure_count + 1,
                last_attempt_ledger := now } k = some dk := hk
          rw [Store.set_self] at hk2
          cases hk2
          simp at ha
        · have hk2 : Store.set s sub_id
              { owner := d.owner, state := SubscriptionState.Failed,
                failure_count := d.failure_count + 1,
                last_attempt_ledger := now } k = some dk := hk
          rw [Store.set_ne s sub_id k _ hkk] at hk2
          exact h k dk hk2 ha
      · by_cases hkk : k = sub_id
        · subst hkk
          have hk2 : Store.set s k
              { owner := d.owner, state := SubscriptionState.Retrying,
                failure_count := d.failure_count + 1,
                last_attempt_ledger := now } k = some dk := hk
          rw [Store.set_self] at hk2
          cases hk2
          simp at ha
        · have hk2 : Store.set s sub_id
              { owner := d.owner, state := SubscriptionState.Retrying,
                failure_count := d.failure_count + 1,
                last_attempt_ledger := now } k = some dk := hk
          rw [Store.set_ne s sub_id k _ hkk] at hk2
          exact h k dk hk2 ha

/-- A whole trace preserves the Active-zero invariant. -/
theorem activeZero_runOps (ops : List Op) :
    ∀ s, ActiveZero s → ActiveZero (runOps s ops) := by
  induction ops with
  | nil => exact fun s h => h
  | cons op rest ih => exact fun s h => ih (applyOp s op) (activeZero_applyOp s op h)

/-- C5: in every store reachable from the empty store by initSubscription
and renew invocations, a record in state Active has failure count zero. -/
theorem active_implies_zero_failures (ops : List Op) (sub_id : Nat)
    (d : SubscriptionData) (h : runOps emptyStore ops sub_id = some d)
    (ha : d.state = SubscriptionState.Active) : d.failure_count = 0 :=
  activeZero_runOps ops emptyStore
    (fun _ _ hk => Option.noConfusion hk) sub_id d h ha

/-- C5 witness: a record reached by an init and a successful renew. -/
theorem active_implies_zero_failures_witness :
    ({ owner := 7, state := SubscriptionState.Active, failure_count := 0,
       last_attempt_ledger := 6 } : SubscriptionData).failure_count = 0 :=
  active_implies_zero_failures [Op.init 7 1, Op.renewAt 6 1 3 0 true] 1 _
    (by decide) rfl

/-- C9: in an initialized registry with the admin's authorization
present, registering an agent makes it authorized and a subsequent
revocation makes it unauthorized again. -/
theorem register_revoke_membership (st : RegistryState) (auths : Nat → Bool)
    (admin a : Nat) (hadmin : st.admin = some admin)
    (hauth : auths admin = true) :
    ∃ st1 st2 : RegistryState,
      AgentRegistry.register auths st a =
        RegResult.ok st1 [RegEvent.agentReg a] ∧
      AgentRegistry.is_authorized st1 a = true ∧
      AgentRegistry.revoke auths st1 a =
        RegResult.ok st2 [RegEvent.agentRev a] ∧
      AgentRegistry.is_authorized st2 a = false := by
  refine ⟨{ st with agents := fun x => if x = a then true else st.agents x },
    { st with agents := fun x => if x = a then false else if x = a then true else st.agents x }, ?_, ?_, ?_, ?_⟩
  · unfold AgentRegistry.register
    rw [hadmin]
    simp [hauth]
  · simp [AgentRegistry.is_authorized]
  · unfold AgentRegistry.revoke
    have hadmin1 : ({ st with agents := fun x => if x = a then true else st.agents x } : RegistryState).admin = some admin := hadmin
    rw [hadmin1]
    simp [hauth]
  · simp [AgentRegistry.is_authorized]

/-- C9 witness: admin 0, agent 3, in a freshly initialized registry. -/
theorem register_revoke_membership_witness :
    ∃ st1 st2 : RegistryState,
      AgentRegistry.register (fun _ => true)
          { admin := some 0, agents := fun _ => false } 3 =
        RegResult.ok st1 [RegEvent.agentReg 3] ∧
      AgentRegistry.is_authorized st1 3 = true ∧
      AgentRegistry.revoke (fun _ => true) st1 3 =
        RegResult.ok st2 [RegEvent.agentRev 3] ∧
      AgentRegistry.is_authorized st2 3 = false :=
  register_revoke_membership { admin := some 0, agents := fun _ => false }
    (fun _ => true) 0 3 rfl rfl

/-- Renew stamps distribute over trace concatenation. -/
theorem nowsOf_append (l1 l2 : List Op) :
    nowsOf (l1 ++ l2) = nowsOf l1 ++ nowsOf l2 := by
  induction l1 with
  | nil => rfl
  | cons op rest ih =>
    cases op with
    | init o i => simp [nowsOf, ih]
    | renewAt now i mr cd b => simp [nowsOf, ih]

/-- Every member of a list of naturals is at most its foldr-max. -/
theorem le_foldr_max (l : List Nat) : ∀ n ∈ l, n ≤ l.foldr max 0 := by
  induction l with
  | nil =>
    intro n hn
    cases hn
  | cons x rest ih =>
    intro n hn
    rcases List.mem_cons.mp hn with h | h
    · subst h
      simp only [List.foldr_cons]
      exact Nat.le_max_left _ _
    · simp only [List.foldr_cons]
      exact le_trans (ih n h) (Nat.le_max_right _ _)

/-- The foldr-max of a list is at most any common upper bound. -/
theorem foldr_max_le (l : List Nat) (n : Nat) (h : ∀ x ∈ l, x ≤ n) :
    l.foldr max 0 ≤ n := by
  induction l with
  | nil => exact Nat.zero_le n
  | cons x rest ih =>
    simp only [List.foldr_cons]
    exact max_le (h x (List.mem_cons_self x rest))
      (ih fun y hy => h y (List.mem_cons_of_mem x hy))

/-- Bound lemma: if every record of the starting store and every renew
stamp of the trace is at most a bound, every record of the resulting
store has its last-attempt ledger at most that bound. -/
theorem runOps_last_le (ops : List Op) :
    ∀ (s : Store) (bound : Nat),
      (∀ k dk, s k = some dk → dk.last_attempt_ledger ≤ bound) →
      (∀ n ∈ nowsOf ops, n ≤ bound) →
      ∀ k dk, runOps s ops k = some dk → dk.last_attempt_ledger ≤ bound := by
  induction ops with
  | nil =>
    intro s bound hs hn k dk hk
    exact hs k dk hk
  | cons op rest ih =>
    intro s bound hs hn k dk hk
    have hk' : runOps (applyOp s op) rest k = some dk := hk
    cases op with
    | init o i =>
      refine ih _ bound ?_ (fun n hn2 => hn n hn2) k dk hk'
      intro k2 dk2 hk2
      rw [show applyOp s (Op.init o i) = init_sub s o i from rfl,
        init_sub_lookup] at hk2
      by_cases hkk : k2 = i
      · rw [if_pos hkk] at hk2
        cases hk2
        exact Nat.zero_le bound
      · rw [if_neg hkk] at hk2
        exact hs k2 dk2 hk2
    | renewAt now i mr cd b =>
      have hnow : now ≤ bound := hn now (List.mem_cons_self _ _)
      refine ih _ bound ?_
        (fun n hn2 => hn n (List.mem_cons_of_mem now hn2)) k dk hk'
      intro k2 dk2 hk2
      rcases applyOp_renewAt_cases s now i mr cd b k2 with
        hsame | ⟨-, d2, hd2, hlast⟩
      · rw [hsame] at hk2
        exact hs k2 dk2 hk2
      · rw [hd2] at hk2
        cases hk2
        rw [hlast]
        exact hnow

/-- Monotone lemma: along a suffix with non-decreasing renew stamps all
at least the record's last-attempt ledger, and containing no
re-initialization of the record's key, the last-attempt ledger never
decreases. -/
theorem last_mono_suffix (post : List Op) :
    ∀ (s : Store) (sub_id : Nat) (d : SubscriptionData),
      List.Pairwise (fun a b => a ≤ b) (nowsOf post) →
      (∀ op ∈ post, ∀ o, op ≠ Op.init o sub_id) →
      s sub_id = some d →
      (∀ n ∈ nowsOf post, d.last_attempt_ledger ≤ n) →
      ∀ d2, runOps s post sub_id = some d2 →
        d.last_attempt_ledger ≤ d2.last_attempt_ledger := by
  induction post with
  | nil =>
    intro s sub_id d hpw hni hd hle d2 h2
    have h2' : s sub_id = some d2 := h2
    rw [hd] at h2'
    cases h2'
    exact le_refl _
  | cons op rest ih =>
    intro s sub_id d hpw hni hd hle d2 h2
    have h2' : runOps (applyOp s op) rest sub_id = some d2 := h2
    cases op with
    | init o i =>
      have hne : i ≠ sub_id := by
        intro he
        exact (hni (Op.init o i) (List.mem_cons_self _ _) o) (by rw [he])
      have hd' : (applyOp s (Op.init o i)) sub_id = some d := by
        rw [show applyOp s (Op.init o i) = init_sub s o i from rfl,
          init_sub_lookup, if_neg (Ne.symm hne)]
        exact hd
      exact ih _ sub_id d hpw
        (fun op2 h2m o2 => hni op2 (List.mem_cons_of_mem _ h2m) o2)
        hd' hle d2 h2'
    | renewAt now i mr cd b =>
      have hpw' : List.Pairwise (fun a b => a ≤ b) (now :: nowsOf rest) := hpw
      have hhead : ∀ n ∈ nowsOf rest, now ≤ n := (List.pairwise_cons.mp hpw').1
      have hpwrest := (List.pairwise_cons.mp hpw').2
      have hle' : ∀ n ∈ nowsOf rest, d.last_attempt_ledger ≤ n :=
        fun n hn => hle n (List.mem_cons_of_mem _ hn)
      rcases applyOp_renewAt_cases s now i mr cd b sub_id with
        hsame | ⟨-, d1, hd1, hlast⟩
      · have hd' : (applyOp s (Op.renewAt now i mr cd b)) sub_id = some d := by
          rw [hsame]
          exact hd
        exact ih _ sub_id d hpwrest
          (fun op2 h2m o2 => hni op2 (List.mem_cons_of_mem _ h2m) o2)
          hd' hle' d2 h2'
      · have hd1le : ∀ n ∈ nowsOf rest, d1.last_attempt_ledger ≤ n := by
          intro n hn
          rw [hlast]
          exact hhead n hn
        have hmono := ih _ sub_id d1 hpwrest
          (fun op2 h2m o2 => hni op2 (List.mem_cons_of_mem _ h2m) o2)
          hd1 hd1le d2 h2'
        have hdnow : d.last_attempt_ledger ≤ now :=
          hle now (List.mem_cons_self _ _)
        rw [← hlast] at hdnow
        exact le_trans hdnow hmono

/-- Statement of claim C7 as written: across any trace whose renew
stamps are non-decreasing, the last-attempt ledger of a record never
decreases between a prefix and the full trace. -/
def lastAttemptMonotoneClaim : Prop :=
  ∀ (pre post : List Op) (sub_id : Nat) (d d2 : SubscriptionData),
    NowsMonotone (pre ++ post) →
    runOps emptyStore pre sub_id = some d →
    runOps emptyStore (pre ++ post) sub_id = some d2 →
    d.last_attempt_ledger ≤ d2.last_attempt_ledger

/-- C7 counterexample: init key 1, fail at ledger 5 (last-attempt 5),
then re-initialize key 1: `init_sub` overwrites and resets the
last-attempt ledger to 0, a strict decrease, although the host sequence
never decreased. -/
theorem lastAttempt_monotone_counterexample : ¬ lastAttemptMonotoneClaim := by
  intro h
  have h2 := h [Op.init 7 1, Op.renewAt 5 1 9 0 false] [Op.init 7 1] 1
    { owner := 7, state := SubscriptionState.Retrying,
      failure_count := 1, last_attempt_ledger := 5 }
    { owner := 7, state := SubscriptionState.Active,
      failure_count := 0, last_attempt_ledger := 0 }
    (by decide) (by decide) (by decide)
  exact absurd h2 (by decide)

/-- C7 amended: the last-attempt ledger of a record never exceeds any
upper bound of the trace's (non-decreasing) renew stamps, and it is
non-decreasing across any suffix of operations that does not
re-initialize the record's identifier (a repeated initSubscription
overwrites the record and resets its last-attempt ledger to 0). -/
theorem lastAttempt_monotone_bounded :
    (∀ (pre post : List Op) (sub_id : Nat) (d d2 : SubscriptionData),
      NowsMonotone (pre ++ post) →
      (∀ op ∈ post, ∀ o, op ≠ Op.init o sub_id) →
      runOps emptyStore pre sub_id = some d →
      runOps emptyStore (pre ++ post) sub_id = some d2 →
      d.last_attempt_ledger ≤ d2.last_attempt_ledger) ∧
    (∀ (ops : List Op) (bound sub_id : Nat) (d : SubscriptionData),
      (∀ n ∈ nowsOf ops, n ≤ bound) →
      runOps emptyStore ops sub_id = some d →
      d.last_attempt_ledger ≤ bound) := by
  constructor
  · intro pre post sub_id d d2 hmono hni hd hd2
    have hsplit : runOps emptyStore (pre ++ post) =
        runOps (runOps emptyStore pre) post := by
      simp [runOps, List.foldl_append]
    rw [hsplit] at hd2
    have hmono2 : List.Pairwise (fun a b => a ≤ b)
        (nowsOf pre ++ nowsOf post) := by
      rw [← nowsOf_append]
      exact hmono
    rw [List.pairwise_append] at hmono2
    obtain ⟨hpw1, hpw2, hcross⟩ := hmono2
    have hdbound : d.last_attempt_ledger ≤ (nowsOf pre).foldr max 0 :=
      runOps_last_le pre emptyStore _
        (fun k dk hk => Option.noConfusion hk)
        (le_foldr_max (nowsOf pre)) sub_id d hd
    have hle : ∀ n ∈ nowsOf post, d.last_attempt_ledger ≤ n := by
      intro n hn
      exact le_trans hdbound
        (foldr_max_le _ n (fun x hx => hcross x hx n hn))
    exact last_mono_suffix post (runOps emptyStore pre) sub_id d
      hpw2 hni hd hle d2 hd2
  · intro ops bound sub_id d hn hd
    exact runOps_last_le ops emptyStore bound
      (fun k dk hk => Option.noConfusion hk) hn sub_id d hd

/-- C7 witness: a failure at ledger 3 then one at ledger 10 keeps the
last-attempt ledger non-decreasing, and the ledger stays below the
bound 9 of the stamps of a short trace. -/
theorem lastAttempt_monotone_bounded_witness :
    ({ owner := 7, state := SubscriptionState.Retrying, failure_count := 1,
       last_attempt_ledger := 3 } : SubscriptionData).last_attempt_ledger ≤
      ({ owner := 7, state := SubscriptionState.Retrying, failure_count := 2,
         last_attempt_ledger := 10 } : SubscriptionData).last_attempt_ledger ∧
    ({ owner := 7, state := SubscriptionState.Retrying, failure_count := 1,
       last_attempt_ledger := 4 } : SubscriptionData).last_attempt_ledger ≤ 9 := by
  constructor
  · exact lastAttempt_monotone_bounded.1
      [Op.init 7 1, Op.renewAt 3 1 5 0 false] [Op.renewAt 10 1 5 2 false] 1 _ _
      (by decide)
      (fun op hop o => by
        rw [List.mem_singleton] at hop
        subst hop
        simp)
      (by decide) (by decide)
  · exact lastAttempt_monotone_bounded.2
      [Op.init 7 1, Op.renewAt 4 1 3 0 false] 9 1 _ (by decide) (by decide)
